import Mathlib

/-!
Verification development for the PLAT repository.

The two source modules are embedded shallowly:

* `plat/core.py` — `run_trajectory`: forward-Euler single-particle
  trajectory integration through a steady-state 2D velocity field, with
  nearest-neighbour sampling via `xarray`'s `DataArray.interp`.
* `plat/met_handler.py` — `MetDataset`: variable-name normalization
  against the `VARIABLE_MAP` alias table, and inclusive spatio-temporal
  subsetting with append-only provenance.

Modelling conventions:

* Python floats are modelled as `ℚ`; a float that is NaN is modelled as
  `none : Option ℚ` (NaN arises in the code only from out-of-range
  interpolation, where `interp` uses `bounds_error=False, fill_value=nan`,
  and then propagates through `+`).
* `xr.DataArray.interp(method='nearest')` on scalar query points is
  embedded as `interpNearest`: inside the closed coordinate bounds it
  returns the value at the nearest grid point on each axis independently
  (ties to the lower index, as in scipy's regular-grid nearest rule),
  and outside the bounds it returns NaN (`none`).
* Python exceptions are an explicit `PyError` value; fallible code
  returns `Except PyError _`.
-/

namespace PLAT

/-- A starting point: the `{'lat': ..., 'lon': ...}` dictionary consumed by
`run_trajectory`, with both keys present and numeric. -/
structure StartPoint where
  lat : ℚ
  lon : ℚ
  deriving DecidableEq, Repr

/-- The velocity-field `xr.Dataset`: the set of data-variable names present,
the `lat`/`lon` coordinate arrays, and the gridded `u`/`v` values indexed by
(lat index, lon index). -/
structure VDataset where
  vars : List String
  lats : List ℚ
  lons : List ℚ
  uVal : Nat → Nat → ℚ
  vVal : Nat → Nat → ℚ

/-- Python exceptions observable from the embedded code.  The first three
are the concrete exceptions the code can raise (`np.zeros` of a negative
size, indexing an empty array, and a missing dataset variable).
`integrationError` is the typed error demanded by the spec's error
taxonomy (`IntegrationError{step_index, cause}`); it is modelled from the
spec because no such type exists anywhere in the code, and no code path
produces it. -/
inductive PyError where
  | valueError : PyError
  | indexError : PyError
  | keyError : String → PyError
  | integrationError : Nat → PyError
  deriving DecidableEq, Repr

/-- The trajectory `xr.Dataset` returned by `run_trajectory`: `lat` and
`lon` variables along the `time` coordinate, plus the `history` attribute.
Entries of `lat`/`lon` are `Option ℚ` because a position coordinate can be
NaN. -/
structure Traj where
  lat : List (Option ℚ)
  lon : List (Option ℚ)
  time : List Nat
  history : String
  deriving DecidableEq, Repr

/-- Index of the grid coordinate nearest to the query `q` (smallest
absolute distance, ties to the lower index), as scipy's regular-grid
nearest-neighbour rule computes it for an ascending coordinate axis. -/
def nearestIdx (coords : List ℚ) (q : ℚ) : Nat :=
  (coords.enum.foldl
    (fun best p =>
      match best with
      | none => some (p.1, |p.2 - q|)
      | some b => if |p.2 - q| < b.2 then some (p.1, |p.2 - q|) else some b)
    none).elim 0 Prod.fst

/-- Whether the scalar query `q` lies within the closed bounds of the
coordinate axis; an empty axis has no in-bounds points. -/
def inBounds (coords : List ℚ) (q : ℚ) : Bool :=
  match coords.min?, coords.max? with
  | some lo, some hi => decide (lo ≤ q ∧ q ≤ hi)
  | _, _ => false

/-- `DataArray.interp(lat=…, lon=…, method='nearest')` at scalar query
points: NaN queries and out-of-bounds queries yield NaN (`interp` defaults
to `bounds_error=False, fill_value=nan`); in-bounds queries return the
grid value at the per-axis nearest coordinates. -/
def interpNearest (lats lons : List ℚ) (val : Nat → Nat → ℚ)
    (lat lon : Option ℚ) : Option ℚ :=
  match lat, lon with
  | some la, some lo =>
      if inBounds lats la ∧ inBounds lons lo then
        some (val (nearestIdx lats la) (nearestIdx lons lo))
      else none
  | _, _ => none

/-- IEEE-style addition on possibly-NaN values: NaN propagates. -/
def oAdd : Option ℚ → Option ℚ → Option ℚ
  | some x, some y => some (x + y)
  | _, _ => none

/-- One iteration of the Euler loop body: sample `u` and `v` at the current
position by nearest-neighbour interpolation, then
`lat[i+1] = lat[i] + v` and `lon[i+1] = lon[i] + u`. -/
def stepOnce (fld : VDataset) (p : Option ℚ × Option ℚ) : Option ℚ × Option ℚ :=
  let u := interpNearest fld.lats fld.lons fld.uVal p.1 p.2
  let v := interpNearest fld.lats fld.lons fld.vVal p.1 p.2
  (oAdd p.1 v, oAdd p.2 u)

/-- The position after `i` Euler steps: step 0 is the starting point, and
each later position is one `stepOnce` from the previous one. -/
def posAt (fld : VDataset) (s : StartPoint) : Nat → Option ℚ × Option ℚ
  | 0 => (some s.lat, some s.lon)
  | i + 1 => stepOnce fld (posAt fld s i)

/-- Decimal rendering of the fractional digits `num/den` (with `num < den`),
used to model Python's decimal formatting of a float in an f-string. -/
def fracDigits : Nat → Nat → Nat → String
  | _, _, 0 => ""
  | num, den, fuel + 1 =>
      if num = 0 then ""
      else toString (num * 10 / den) ++ fracDigits (num * 10 % den) den fuel

/-- Python's decimal formatting of a (non-special) float value, as produced
by an f-string: optional sign, integer part, a dot, and the fractional
digits (`40.0`, `-119.5`, …). -/
def pyFloatRepr (q : ℚ) : String :=
  let sign := if q < 0 then "-" else ""
  let aq : ℚ := |q|
  let ip : Nat := (⌊aq⌋).toNat
  let fr : ℚ := aq - (ip : ℚ)
  let ds := fracDigits fr.num.toNat fr.den 30
  sign ++ toString ip ++ "." ++ (if ds = "" then "0" else ds)

/-- The `history` attribute written by `run_trajectory`:
`f"Trajectory simulation started from lat={lat}, lon={lon}"`. -/
def historyLog (s : StartPoint) : String :=
  "Trajectory simulation started from lat=" ++ pyFloatRepr s.lat
    ++ ", lon=" ++ pyFloatRepr s.lon

/-- `plat.core.run_trajectory`.  Mirrors the Python control flow:

* `np.zeros(num_steps + 1)` raises `ValueError` when `num_steps + 1 < 0`;
* writing `trajectory_lat[0]` raises `IndexError` when the array length
  `num_steps + 1` is zero;
* each loop iteration reads `velocity_field['u']` then
  `velocity_field['v']`, raising `KeyError` if the variable is absent (so
  the first iteration already fails when `num_steps ≥ 1` and a component
  is missing);
* otherwise the loop fills the arrays by forward Euler (`posAt`) and the
  result dataset carries the `time` coordinate `0 .. num_steps` and the
  `history` attribute. -/
def run_trajectory (s : StartPoint) (fld : VDataset) (num_steps : Int) :
    Except PyError Traj :=
  if num_steps + 1 < 0 then .error .valueError
  else if num_steps + 1 = 0 then .error .indexError
  else
    let k := num_steps.toNat
    if k ≠ 0 ∧ ¬ fld.vars.contains "u" then .error (.keyError "u")
    else if k ≠ 0 ∧ ¬ fld.vars.contains "v" then .error (.keyError "v")
    else .ok {
      lat := (List.range (k + 1)).map (fun i => (posAt fld s i).1)
      lon := (List.range (k + 1)).map (fun i => (posAt fld s i).2)
      time := List.range (k + 1)
      history := historyLog s }

/-! ### `plat/met_handler.py` -/

/-- `MetDataset.VARIABLE_MAP`: HYSPLIT standard keys and their potential
aliases, in the class-level insertion order. -/
def VARIABLE_MAP : List (String × List String) :=
  [("u", ["u", "UGRD", "u_wind"]),
   ("v", ["v", "VGRD", "v_wind"]),
   ("w", ["w", "W", "W_wind", "VVEL"]),
   ("t", ["t", "TMP", "temperature"]),
   ("z", ["z", "HGT", "geopotential_height"])]

/-- The inner alias loop of `_normalize_variable_names`: the first alias in
the list that is present among the dataset's variables (the `break` makes
the first match win). -/
def firstAlias (aliases vars : List String) : Option String :=
  aliases.find? (fun a => vars.contains a)

/-- The `rename_dict` built by `_normalize_variable_names`: one
`alias ↦ std_name` entry per canonical name whose alias list has a match,
in `VARIABLE_MAP` order. -/
def buildRenameDict (vars : List String) : List (String × String) :=
  VARIABLE_MAP.foldl
    (fun acc p =>
      match firstAlias p.2 vars with
      | some a => acc ++ [(a, p.1)]
      | none => acc)
    []

/-- `xr.Dataset.rename` applied to one variable name: mapped through the
rename dictionary when present, left unchanged otherwise. -/
def applyRename (d : List (String × String)) (x : String) : String :=
  match d.find? (fun p => p.1 == x) with
  | some p => p.2
  | none => x

/-- `MetDataset._normalize_variable_names` at the level of the dataset's
variable-name list: every variable name is pushed through the rename
dictionary built from `VARIABLE_MAP`. -/
def normalizeVariableNames (vars : List String) : List String :=
  vars.map (applyRename (buildRenameDict vars))

/-- The contribution of one `VARIABLE_MAP` entry to the rename dictionary:
a single `alias ↦ std_name` pair when an alias is present, nothing
otherwise.  (Reformulation of the fold in `buildRenameDict`, used to
reason about dictionary membership.) -/
def entryPairs (vars : List String) (p : String × List String) :
    List (String × String) :=
  match firstAlias p.2 vars with
  | some a => [(a, p.1)]
  | none => []

/-- A meteorological dataset as consumed by `MetDataset.subset`: the three
named coordinate axes, the data-variable names, the gridded values as a
function of variable name and coordinate values (selection never alters a
value at a retained coordinate), and the optional `history` attribute.
Time coordinates are numeric (hours since a reference instant), matching
the datetime64 axis. -/
structure MetDS where
  times : List ℚ
  lats : List ℚ
  lons : List ℚ
  dataVars : List String
  val : String → ℚ → ℚ → ℚ → ℚ
  history : Option String

/-- `.sel(axis=slice(lo, hi))` on one ascending coordinate axis:
label-based slicing keeps exactly the coordinate values inside the closed
interval `[lo, hi]`. -/
def selRange (coords : List ℚ) (lo hi : ℚ) : List ℚ :=
  coords.filter (fun x => decide (lo ≤ x ∧ x ≤ hi))

/-- Python's tuple formatting `(a, b)` of a pair of floats inside the
subset f-string. -/
def pairRepr (p : ℚ × ℚ) : String :=
  "(" ++ pyFloatRepr p.1 ++ ", " ++ pyFloatRepr p.2 ++ ")"

/-- The provenance line written by `MetDataset.subset`:
`f"Subsetted data to time_range=…, lat_bounds=…, lon_bounds=…"`. -/
def subsetLog (tr la lo : ℚ × ℚ) : String :=
  "Subsetted data to time_range=" ++ pairRepr tr
    ++ ", lat_bounds=" ++ pairRepr la
    ++ ", lon_bounds=" ++ pairRepr lo

/-- The history-append convention of `MetDataset.subset`: if an existing
non-empty history is present (`if existing_history:` — Python truthiness,
so `None` and `""` both count as absent), the new line is appended after a
newline; otherwise the new line starts the log. -/
def appendHistory (h : Option String) (line : String) : String :=
  match h with
  | some s => if s = "" then line else s ++ "\n" ++ line
  | none => line

/-- `MetDataset.subset`: inclusive slice selection on the `time`,
`latitude` and `longitude` axes independently (`.sel` preserves the data
values at retained coordinates and the dataset attributes), followed by
the provenance append. -/
def subset (ds : MetDS) (tr la lo : ℚ × ℚ) : MetDS :=
  { times := selRange ds.times tr.1 tr.2
    lats := selRange ds.lats la.1 la.2
    lons := selRange ds.lons lo.1 lo.2
    dataVars := ds.dataVars
    val := ds.val
    history := some (appendHistory ds.history (subsetLog tr la lo)) }

/-! ### Concrete fixtures used by witnesses and counterexamples -/

/-- A small velocity field: a 2×2 grid over lat, lon ∈ [0, 10] with
constant `u = 3` and `v = 4`. -/
def wField : VDataset :=
  { vars := ["u", "v"], lats := [0, 10], lons := [0, 10],
    uVal := fun _ _ => 3, vVal := fun _ _ => 4 }

/-- A velocity field whose grid values encode their own indices, used to
name the would-be clamped edge value. -/
def gField : VDataset :=
  { vars := ["u", "v"], lats := [0, 10], lons := [0, 10],
    uVal := fun i j => i * 10 + j, vVal := fun i j => i * 10 + j }

/-- A velocity field with no data variables at all (an empty dataset). -/
def emptyField : VDataset :=
  { vars := [], lats := [], lons := [],
    uVal := fun _ _ => 0, vVal := fun _ _ => 0 }

/-- The meteorological dataset of the unit tests: a 12-hour hourly time
axis starting at 2023-01-01T00:00 (hour offsets 0‥11), latitudes
30, 40, 50 and longitudes -125, -115, -105. -/
def exampleMetDS : MetDS :=
  { times := [0, 1, 2, 3, 4, 5, 6, 7, 8, 9, 10, 11]
    lats := [30, 40, 50]
    lons := [-125, -115, -105]
    dataVars := ["u", "v", "t"]
    val := fun _ _ _ _ => 0
    history := none }

deriving instance DecidableEq for Except

attribute [local semireducible] Rat.add Rat.sub Rat.mul Rat.inv Rat.ofScientific

/-- The starting point used by concrete witnesses. -/
def wStart : StartPoint := ⟨1, 2⟩

/-- The trajectory `run_trajectory wStart wField 1` produces: one Euler
step adds `v = 4` to the latitude and `u = 3` to the longitude. -/
def wTraj1 : Traj :=
  { lat := [some 1, some 5], lon := [some 2, some 5], time := [0, 1],
    history := "Trajectory simulation started from lat=1.0, lon=2.0" }

/-! ### Helper lemmas -/

theorem getD_map_range {α : Type} (f : Nat → α) (d : α) (n i : Nat)
    (hi : i < n) : ((List.range n).map f).getD i d = f i := by
  rw [List.getD_eq_getElem?_getD, List.getElem?_map, List.getElem?_range hi]
  rfl

theorem run_trajectory_ok_elim (s : StartPoint) (fld : VDataset) (n : Int)
    (t : Traj) (h : run_trajectory s fld n = .ok t) :
    0 ≤ n ∧
    t = { lat := (List.range (n.toNat + 1)).map (fun i => (posAt fld s i).1)
          lon := (List.range (n.toNat + 1)).map (fun i => (posAt fld s i).2)
          time := List.range (n.toNat + 1)
          history := historyLog s } := by
  unfold run_trajectory at h
  by_cases h1 : n + 1 < 0
  · simp [h1] at h
  · by_cases h2 : n + 1 = 0
    · simp [h1, h2] at h
    · have hn : 0 ≤ n := by omega
      refine ⟨hn, ?_⟩
      by_cases hk : n.toNat = 0
      · simp [h1, h2, hk] at h
        simp [hk]
        exact h.symm
      · by_cases hu : "u" ∈ fld.vars
        · by_cases hv : "v" ∈ fld.vars
          · simp [h1, h2, hk, hu, hv] at h
            exact h.symm
          · simp [h1, h2, hk, hu, hv] at h
        · simp [h1, h2, hk, hu] at h

/-! ### Claims about `run_trajectory` -/

/-- C2: for every velocity field, starting position and non-negative
`num_steps`, the returned trajectory has exactly `num_steps + 1`
positions, its `time` coordinate is `0 .. num_steps`, and the position at
step 0 equals the starting point exactly.  (A returned trajectory forces
`0 ≤ num_steps`, so the invariant is stated for every run that returns.) -/
theorem run_trajectory_length_invariant (s : StartPoint) (fld : VDataset)
    (n : Int) (t : Traj) (h : run_trajectory s fld n = .ok t) :
    0 ≤ n ∧
    t.lat.length = n.toNat + 1 ∧
    t.lon.length = n.toNat + 1 ∧
    t.time = List.range (n.toNat + 1) ∧
    t.lat.getD 0 none = some s.lat ∧
    t.lon.getD 0 none = some s.lon := by
  obtain ⟨hn, ht⟩ := run_trajectory_ok_elim s fld n t h
  subst ht
  refine ⟨hn, by simp, by simp, rfl, ?_, ?_⟩
  · rw [getD_map_range _ none (n.toNat + 1) 0 (by omega)]
    rfl
  · rw [getD_map_range _ none (n.toNat + 1) 0 (by omega)]
    rfl

/-- Witness for C2 at `num_steps = 1` on the concrete field `wField`. -/
theorem run_trajectory_length_invariant_witness :
    0 ≤ (1 : Int) ∧
    wTraj1.lat.length = (1 : Int).toNat + 1 ∧
    wTraj1.lon.length = (1 : Int).toNat + 1 ∧
    wTraj1.time = List.range ((1 : Int).toNat + 1) ∧
    wTraj1.lat.getD 0 none = some wStart.lat ∧
    wTraj1.lon.getD 0 none = some wStart.lon :=
  run_trajectory_length_invariant wStart wField 1 wTraj1 (by decide)

/-- C3: `num_steps = 0` yields the one-point trajectory at the start, and
the result is a fixed dataset that does not depend on the velocity field
in any way (the Euler loop body never runs), so no field sample or
interpolation is performed. -/
theorem run_trajectory_zero_steps (s : StartPoint) (fld : VDataset) :
    run_trajectory s fld 0 =
      .ok { lat := [some s.lat], lon := [some s.lon], time := [0],
            history := historyLog s } := by
  norm_num [run_trajectory, List.range_succ, posAt]

/-- C9: the `history` attribute of every returned trajectory contains the
starting latitude and longitude, formatted as decimal numbers, as
substrings (an explicit decomposition around the two formatted values). -/
theorem run_trajectory_history_records_start (s : StartPoint)
    (fld : VDataset) (n : Int) (t : Traj)
    (h : run_trajectory s fld n = .ok t) :
    ∃ pre mid post : String,
      t.history = pre ++ pyFloatRepr s.lat ++ mid ++ pyFloatRepr s.lon ++ post := by
  obtain ⟨-, ht⟩ := run_trajectory_ok_elim s fld n t h
  subst ht
  refine ⟨"Trajectory simulation started from lat=", ", lon=", "", ?_⟩
  simp [historyLog]

/-- Witness for C9 on the concrete run `run_trajectory wStart wField 1`. -/
theorem run_trajectory_history_records_start_witness :
    ∃ pre mid post : String,
      wTraj1.history =
        pre ++ pyFloatRepr wStart.lat ++ mid ++ pyFloatRepr wStart.lon ++ post :=
  run_trajectory_history_records_start wStart wField 1 wTraj1 (by decide)

/-- C10: a negative `num_steps` never returns a trajectory: `np.zeros`
raises `ValueError` for an array size below zero (`num_steps ≤ -2`), and
for `num_steps = -1` the length-zero arrays make the write of the
starting point raise `IndexError`; either way `run_trajectory` fails, so
a dataset is only returned when `num_steps ≥ 0`. -/
theorem run_trajectory_negative_steps (s : StartPoint) (fld : VDataset)
    (n : Int) (hn : n < 0) :
    run_trajectory s fld n =
      .error (if n + 1 < 0 then PyError.valueError else PyError.indexError) := by
  unfold run_trajectory
  by_cases h1 : n + 1 < 0
  · simp [h1]
  · have h2 : n + 1 = 0 := by omega
    simp [h1, h2]

/-- Witness for C10 at `num_steps = -1`. -/
theorem run_trajectory_negative_steps_witness :
    run_trajectory wStart wField (-1) = .error PyError.indexError := by
  have h := run_trajectory_negative_steps wStart wField (-1) (by decide)
  simpa using h

theorem run_trajectory_pos (s : StartPoint) (fld : VDataset) (n : Int)
    (t : Traj) (h : run_trajectory s fld n = .ok t) (j : Nat)
    (hj : j < n.toNat + 1) :
    t.lat.getD j none = (posAt fld s j).1 ∧
    t.lon.getD j none = (posAt fld s j).2 := by
  obtain ⟨-, ht⟩ := run_trajectory_ok_elim s fld n t h
  subst ht
  exact ⟨getD_map_range _ none (n.toNat + 1) j hj,
         getD_map_range _ none (n.toNat + 1) j hj⟩

/-- C1: each returned trajectory advances by one forward-Euler step per
index: `lat[i+1] = lat[i] + v` and `lon[i+1] = lon[i] + u`, where `u`/`v`
are the field's `u`/`v` values sampled by nearest-neighbour interpolation
at position `i`, with unit time step and no scaling of the increments. -/
theorem run_trajectory_euler_update (s : StartPoint) (fld : VDataset)
    (n : Int) (t : Traj) (h : run_trajectory s fld n = .ok t)
    (i : Nat) (hi : i < n.toNat) :
    t.lat.getD (i + 1) none =
      oAdd (t.lat.getD i none)
        (interpNearest fld.lats fld.lons fld.vVal
          (t.lat.getD i none) (t.lon.getD i none)) ∧
    t.lon.getD (i + 1) none =
      oAdd (t.lon.getD i none)
        (interpNearest fld.lats fld.lons fld.uVal
          (t.lat.getD i none) (t.lon.getD i none)) := by
  obtain ⟨hl1, ho1⟩ := run_trajectory_pos s fld n t h (i + 1) (by omega)
  obtain ⟨hl0, ho0⟩ := run_trajectory_pos s fld n t h i (by omega)
  rw [hl1, ho1, hl0, ho0]
  exact ⟨rfl, rfl⟩

/-- Witness for C1: one Euler step on the concrete field `wField`. -/
theorem run_trajectory_euler_update_witness :
    wTraj1.lat.getD 1 none =
      oAdd (wTraj1.lat.getD 0 none)
        (interpNearest wField.lats wField.lons wField.vVal
          (wTraj1.lat.getD 0 none) (wTraj1.lon.getD 0 none)) ∧
    wTraj1.lon.getD 1 none =
      oAdd (wTraj1.lon.getD 0 none)
        (interpNearest wField.lats wField.lons wField.uVal
          (wTraj1.lat.getD 0 none) (wTraj1.lon.getD 0 none)) :=
  run_trajectory_euler_update wStart wField 1 wTraj1 (by decide) 0 (by decide)

/-- C4 counterexample: starting at (lat, lon) = (100, 3), outside the
2×2 grid of `gField` (whose axes cover [0, 10]), the sample is NaN
(`none`), not the value at the nearest edge grid point
(`gField.uVal 1 0`), and after one step the trajectory's position is NaN
rather than a finite clamped value. -/
theorem out_of_domain_not_clamped :
    run_trajectory ⟨100, 3⟩ gField 1 =
      .ok { lat := [some 100, none], lon := [some 3, none], time := [0, 1],
            history := "Trajectory simulation started from lat=100.0, lon=3.0" } ∧
    interpNearest gField.lats gField.lons gField.uVal (some 100) (some 3) = none ∧
    interpNearest gField.lats gField.lons gField.uVal (some 100) (some 3) ≠
      some (gField.uVal 1 0) :=
  ⟨by decide, by decide, by decide⟩

theorem posAt_none_of_out (fld : VDataset) (s : StartPoint)
    (hout : ¬ (inBounds fld.lats s.lat ∧ inBounds fld.lons s.lon)) :
    ∀ i : Nat, 1 ≤ i → posAt fld s i = (none, none) := by
  intro i hi
  induction i with
  | zero => omega
  | succ j ih =>
    by_cases hj : 1 ≤ j
    · simp [posAt, ih hj, stepOnce, interpNearest, oAdd]
    · have hj0 : j = 0 := by omega
      subst hj0
      simp [posAt, stepOnce, interpNearest, hout, oAdd]

theorem run_trajectory_ok_of (s : StartPoint) (fld : VDataset) (n : Int)
    (hn : 0 ≤ n) (hu : "u" ∈ fld.vars) (hv : "v" ∈ fld.vars) :
    run_trajectory s fld n =
      .ok { lat := (List.range (n.toNat + 1)).map (fun i => (posAt fld s i).1)
            lon := (List.range (n.toNat + 1)).map (fun i => (posAt fld s i).2)
            time := List.range (n.toNat + 1)
            history := historyLog s } := by
  have h1 : ¬ (n + 1 < 0) := by omega
  have h2 : ¬ (n + 1 = 0) := by omega
  unfold run_trajectory
  simp [h1, h2, hu, hv]

/-- C4 amended: when the particle's position leaves the field's covered
domain, subsequent nearest-neighbour samples return NaN (`interp` uses
`bounds_error=False, fill_value=nan`), not the nearest-edge value;
integration still runs to completion and returns a trajectory, but every
position after the exit is NaN rather than a finite clamped value.
(Stated for a start outside the domain, the first moment the general
phenomenon can be exhibited.) -/
theorem out_of_domain_gives_nan_positions (s : StartPoint) (fld : VDataset)
    (n : Int) (hn : 0 ≤ n) (hu : "u" ∈ fld.vars) (hv : "v" ∈ fld.vars)
    (hout : ¬ (inBounds fld.lats s.lat ∧ inBounds fld.lons s.lon)) :
    ∃ t, run_trajectory s fld n = .ok t ∧
      interpNearest fld.lats fld.lons fld.uVal (some s.lat) (some s.lon) = none ∧
      interpNearest fld.lats fld.lons fld.vVal (some s.lat) (some s.lon) = none ∧
      ∀ i : Nat, 1 ≤ i → i < n.toNat + 1 →
        t.lat.getD i none = none ∧ t.lon.getD i none = none := by
  refine ⟨_, run_trajectory_ok_of s fld n hn hu hv,
    by simp [interpNearest, hout], by simp [interpNearest, hout], ?_⟩
  intro i hi1 hi2
  have hp := posAt_none_of_out fld s hout i hi1
  constructor
  · rw [getD_map_range _ none (n.toNat + 1) i hi2, hp]
  · rw [getD_map_range _ none (n.toNat + 1) i hi2, hp]

/-- Witness for the amended C4 at the concrete out-of-domain start
(100, 3) on `gField`. -/
theorem out_of_domain_gives_nan_positions_witness :
    ∃ t, run_trajectory ⟨100, 3⟩ gField 1 = .ok t ∧
      interpNearest gField.lats gField.lons gField.uVal (some (100 : ℚ))
        (some (3 : ℚ)) = none ∧
      interpNearest gField.lats gField.lons gField.vVal (some (100 : ℚ))
        (some (3 : ℚ)) = none ∧
      ∀ i : Nat, 1 ≤ i → i < (1 : Int).toNat + 1 →
        t.lat.getD i none = none ∧ t.lon.getD i none = none :=
  out_of_domain_gives_nan_positions ⟨100, 3⟩ gField 1 (by decide)
    (by decide) (by decide) (by decide)

/-- C5 counterexample: on the empty velocity field (no variables at all)
`run_trajectory` fails with the untyped `KeyError` for `'u'` raised by
`velocity_field['u']` — not with a typed `IntegrationError` carrying the
step index (0) at which the failure occurred; no such error type exists
in the code. -/
theorem no_integration_error_on_empty_field :
    run_trajectory ⟨0, 0⟩ emptyField 1 = .error (PyError.keyError "u") ∧
    run_trajectory ⟨0, 0⟩ emptyField 1 ≠ .error (PyError.integrationError 0) :=
  ⟨by decide, by decide⟩

/-- C5 amended: when a velocity component cannot be obtained because the
variable is missing from the dataset (e.g. an empty field), the failure
surfaces as the underlying `KeyError` for the first missing component
read in the loop (`'u'` first, then `'v'`), with no step index attached
and no typed `IntegrationError`. -/
theorem missing_variable_raises_key_error (s : StartPoint) (fld : VDataset)
    (n : Int) (hn : 1 ≤ n) :
    (¬ "u" ∈ fld.vars → run_trajectory s fld n = .error (PyError.keyError "u")) ∧
    ("u" ∈ fld.vars → ¬ "v" ∈ fld.vars →
      run_trajectory s fld n = .error (PyError.keyError "v")) := by
  have h1 : ¬ (n + 1 < 0) := by omega
  have h2 : ¬ (n + 1 = 0) := by omega
  have hk : n.toNat ≠ 0 := by omega
  constructor
  · intro hu
    unfold run_trajectory
    simp [h1, h2, hk, hu]
  · intro hu hv
    unfold run_trajectory
    simp [h1, h2, hk, hu, hv]

/-- Witness for the amended C5 on the empty field. -/
theorem missing_variable_raises_key_error_witness :
    run_trajectory ⟨0, 0⟩ emptyField 1 = .error (PyError.keyError "u") :=
  (missing_variable_raises_key_error ⟨0, 0⟩ emptyField 1 (by decide)).1
    (by decide)

/-! ### Claims about `MetDataset` -/

theorem append_ne_empty_left (a b : String) (ha : a ≠ "") : a ++ b ≠ "" := by
  intro h
  apply ha
  have hd := congrArg String.data h
  rw [String.data_append] at hd
  have hnil : a.data = [] := (List.append_eq_nil.1 hd).1
  exact String.ext hnil

theorem subsetLog_ne_empty (tr la lo : ℚ × ℚ) : subsetLog tr la lo ≠ "" := by
  unfold subsetLog
  apply append_ne_empty_left
  apply append_ne_empty_left
  apply append_ne_empty_left
  apply append_ne_empty_left
  apply append_ne_empty_left
  decide

theorem appendHistory_ne_empty (h : Option String) (line : String)
    (hl : line ≠ "") : appendHistory h line ≠ "" := by
  unfold appendHistory
  match h with
  | none => exact hl
  | some s =>
      by_cases hs : s = ""
      · simp [hs, hl]
      · simp [hs]
        exact append_ne_empty_left _ _ (append_ne_empty_left _ _ hs)

theorem selRange_idem (c : List ℚ) (lo hi : ℚ) :
    selRange (selRange c lo hi) lo hi = selRange c lo hi := by
  simp [selRange, List.filter_filter]

/-- C7: applying `subset` a second time with the same bounds leaves every
axis and every data value unchanged (inclusive filtering is idempotent),
while the provenance history grows by exactly one more line of identical
content, appended after a newline, with the whole earlier history kept as
a prefix. -/
theorem subset_idempotent_up_to_provenance (ds : MetDS) (tr la lo : ℚ × ℚ) :
    (subset (subset ds tr la lo) tr la lo).times = (subset ds tr la lo).times ∧
    (subset (subset ds tr la lo) tr la lo).lats = (subset ds tr la lo).lats ∧
    (subset (subset ds tr la lo) tr la lo).lons = (subset ds tr la lo).lons ∧
    (subset (subset ds tr la lo) tr la lo).dataVars = (subset ds tr la lo).dataVars ∧
    (subset (subset ds tr la lo) tr la lo).val = (subset ds tr la lo).val ∧
    (subset ds tr la lo).history = some (appendHistory ds.history (subsetLog tr la lo)) ∧
    (subset (subset ds tr la lo) tr la lo).history =
      some (appendHistory ds.history (subsetLog tr la lo)
        ++ "\n" ++ subsetLog tr la lo) := by
  have hne : appendHistory ds.history (subsetLog tr la lo) ≠ "" :=
    appendHistory_ne_empty ds.history (subsetLog tr la lo)
      (subsetLog_ne_empty tr la lo)
  refine ⟨selRange_idem _ _ _, selRange_idem _ _ _, selRange_idem _ _ _,
    rfl, rfl, rfl, ?_⟩
  show some (if appendHistory ds.history (subsetLog tr la lo) = ""
             then subsetLog tr la lo
             else appendHistory ds.history (subsetLog tr la lo)
               ++ "\n" ++ subsetLog tr la lo) = _
  rw [if_neg hne]

/-- Witness for C7: the second identical subset of the test dataset keeps
the time axis unchanged. -/
theorem subset_idempotent_up_to_provenance_witness :
    (subset (subset exampleMetDS (2, 5) (30, 50) (-125, -105))
        (2, 5) (30, 50) (-125, -105)).times =
      (subset exampleMetDS (2, 5) (30, 50) (-125, -105)).times :=
  (subset_idempotent_up_to_provenance exampleMetDS
    (2, 5) (30, 50) (-125, -105)).1

/-- C8: `subset` selects inclusively and independently on the three axes:
each axis of the result is the inclusive filtering of that axis (a value
is retained precisely when it lies inside the closed bounds), and on the
test dataset's 12-hour hourly time axis the range 02:00–05:00 (hour
offsets 2 and 5) keeps exactly the four timestamps 02:00, 03:00, 04:00,
05:00. -/
theorem subset_inclusive_selection :
    (∀ (ds : MetDS) (tr la lo : ℚ × ℚ),
      (subset ds tr la lo).times = selRange ds.times tr.1 tr.2 ∧
      (subset ds tr la lo).lats = selRange ds.lats la.1 la.2 ∧
      (subset ds tr la lo).lons = selRange ds.lons lo.1 lo.2) ∧
    (∀ (coords : List ℚ) (lo hi x : ℚ),
      x ∈ selRange coords lo hi ↔ x ∈ coords ∧ lo ≤ x ∧ x ≤ hi) ∧
    (subset exampleMetDS (2, 5) (30, 50) (-125, -105)).times = [2, 3, 4, 5] := by
  refine ⟨fun ds tr la lo => ⟨rfl, rfl, rfl⟩, ?_, by decide⟩
  intro coords lo hi x
  simp [selRange, List.mem_filter]

/-- Witness for C8: the retention criterion evaluated at the concrete
time value 2 on the test dataset's time axis. -/
theorem subset_inclusive_selection_witness :
    (2 : ℚ) ∈ selRange exampleMetDS.times 2 5 ↔
      (2 : ℚ) ∈ exampleMetDS.times ∧ (2 : ℚ) ≤ 2 ∧ (2 : ℚ) ≤ 5 :=
  subset_inclusive_selection.2.1 exampleMetDS.times 2 5 2

theorem foldl_append_join {α β : Type} (g : α → List β) :
    ∀ (l : List α) (acc : List β),
      l.foldl (fun a x => a ++ g x) acc = acc ++ (l.map g).flatten := by
  intro l
  induction l with
  | nil => intro acc; simp
  | cons x xs ih => intro acc; simp [ih, List.append_assoc]

theorem buildRenameDict_eq (vars : List String) :
    buildRenameDict vars = (VARIABLE_MAP.map (entryPairs vars)).flatten := by
  unfold buildRenameDict
  have hbody : ∀ (acc : List (String × String)) (p : String × List String),
      (match firstAlias p.2 vars with
       | some a => acc ++ [(a, p.1)]
       | none => acc) = acc ++ entryPairs vars p := by
    intro acc p
    unfold entryPairs
    cases firstAlias p.2 vars <;> simp
  rw [List.foldl_ext _ (fun a x => a ++ entryPairs vars x) []
        (fun acc p _ => hbody acc p)]
  rw [foldl_append_join (entryPairs vars) VARIABLE_MAP []]
  simp

theorem mem_entryPairs (vars : List String) (q : String × List String)
    (p : String × String) :
    p ∈ entryPairs vars q ↔ firstAlias q.2 vars = some p.1 ∧ q.1 = p.2 := by
  unfold entryPairs
  cases h : firstAlias q.2 vars with
  | none => simp
  | some a =>
      simp only [List.mem_singleton]
      constructor
      · intro hp
        subst hp
        exact ⟨rfl, rfl⟩
      · rintro ⟨h1, h2⟩
        cases p
        cases h1
        cases h2
        rfl

theorem mem_buildRenameDict (vars : List String) (p : String × String) :
    p ∈ buildRenameDict vars ↔
      ∃ q ∈ VARIABLE_MAP, firstAlias q.2 vars = some p.1 ∧ q.1 = p.2 := by
  rw [buildRenameDict_eq]
  simp only [List.mem_flatten, List.mem_map]
  constructor
  · rintro ⟨l, ⟨q, hq, rfl⟩, hp⟩
    exact ⟨q, hq, (mem_entryPairs vars q p).1 hp⟩
  · rintro ⟨q, hq, h⟩
    exact ⟨entryPairs vars q, ⟨q, hq, rfl⟩, (mem_entryPairs vars q p).2 h⟩

theorem variable_map_alias_disjoint :
    ∀ p ∈ VARIABLE_MAP, ∀ q ∈ VARIABLE_MAP, p.1 ≠ q.1 →
      ∀ a ∈ p.2, ∀ b ∈ q.2, a ≠ b := by decide

theorem variable_map_entries_unique :
    ∀ p ∈ VARIABLE_MAP, ∀ q ∈ VARIABLE_MAP, p.1 = q.1 → p.2 = q.2 := by decide

theorem variable_map_self_alias : ∀ p ∈ VARIABLE_MAP, p.1 ∈ p.2 := by decide

theorem firstAlias_mem (aliases vars : List String) (a : String)
    (h : firstAlias aliases vars = some a) : a ∈ aliases ∧ a ∈ vars := by
  unfold firstAlias at h
  refine ⟨List.mem_of_find?_eq_some h, ?_⟩
  have h2 := List.find?_some h
  simpa using h2

theorem firstAlias_none (aliases vars : List String)
    (h : firstAlias aliases vars = none) : ∀ a ∈ aliases, a ∉ vars := by
  unfold firstAlias at h
  intro a ha hv
  have hfa := List.find?_eq_none.1 h a ha
  simp at hfa
  exact hfa hv

theorem find?_key_of_unique (d : List (String × String)) (p : String × String)
    (hp : p ∈ d) (huniq : ∀ q ∈ d, q.1 = p.1 → q = p) :
    d.find? (fun q => q.1 == p.1) = some p := by
  induction d with
  | nil => cases hp
  | cons x xs ih =>
      by_cases hx : x.1 = p.1
      · have hxp : x = p := huniq x (List.mem_cons_self x xs) hx
        subst hxp
        simp [List.find?_cons_of_pos]
      · have hp' : p ∈ xs := by
          rcases List.mem_cons.1 hp with h | h
          · exact absurd (congrArg Prod.fst h.symm) hx
          · exact h
        have hrest := ih hp' (fun q hq hq1 =>
          huniq q (List.mem_cons_of_mem x hq) hq1)
        rw [List.find?_cons_of_neg _ (by simpa using hx)]
        exact hrest

theorem applyRename_first_alias (vars : List String) (c : String)
    (as : List String) (a : String) (hma : (c, as) ∈ VARIABLE_MAP)
    (hfa : firstAlias as vars = some a) :
    a ∈ vars ∧ applyRename (buildRenameDict vars) a = c := by
  refine ⟨(firstAlias_mem as vars a hfa).2, ?_⟩
  have hpmem : ((a, c) : String × String) ∈ buildRenameDict vars :=
    (mem_buildRenameDict vars (a, c)).2 ⟨(c, as), hma, hfa, rfl⟩
  have huniq : ∀ q ∈ buildRenameDict vars, q.1 = a → q = (a, c) := by
    intro q hq hq1
    obtain ⟨r, hr, hfr, hr1⟩ := (mem_buildRenameDict vars q).1 hq
    by_cases hcc : r.1 = c
    · have hras : r.2 = as :=
        variable_map_entries_unique r hr (c, as) hma (by simpa using hcc)
      rw [hras, hq1, hfa] at hfr
      cases q
      simp only [Prod.mk.injEq]
      exact ⟨hq1, hr1.symm.trans hcc⟩
    · have hq1r : q.1 ∈ r.2 := (firstAlias_mem r.2 vars q.1 hfr).1
      have haas : a ∈ as := (firstAlias_mem as vars a hfa).1
      have hne := variable_map_alias_disjoint r hr (c, as) hma
        (by simpa using hcc) q.1 hq1r a haas
      exact absurd hq1 hne
  unfold applyRename
  rw [find?_key_of_unique (buildRenameDict vars) (a, c) hpmem huniq]

theorem canonical_unset_when_no_alias (vars : List String) (c : String)
    (as : List String) (hma : (c, as) ∈ VARIABLE_MAP)
    (hfa : firstAlias as vars = none) :
    c ∉ normalizeVariableNames vars := by
  intro hc
  obtain ⟨x, hx, hxc⟩ := List.mem_map.1 hc
  cases hfq : (buildRenameDict vars).find? (fun q => q.1 == x) with
  | none =>
      rw [applyRename, hfq] at hxc
      have hxc' : x = c := hxc
      have hcas : c ∈ as := by
        have := variable_map_self_alias (c, as) hma
        simpa using this
      have hcv : c ∈ vars := hxc' ▸ hx
      exact (firstAlias_none as vars hfa c hcas) hcv
  | some q =>
      rw [applyRename, hfq] at hxc
      have hxc' : q.2 = c := hxc
      have hqmem := List.mem_of_find?_eq_some hfq
      obtain ⟨r, hr, hfr, hr1⟩ := (mem_buildRenameDict vars q).1 hqmem
      have hras : r.2 = as :=
        variable_map_entries_unique r hr (c, as) hma (by rw [hr1]; exact hxc')
      rw [hras, hfa] at hfr
      cases hfr

/-- C6: variable-name normalization renames, for each canonical name, the
first alias of that name present among the dataset's variables to the
canonical name (first match in the alias list's order wins); canonical
names with no alias present are left unset, with no error (the rename is
total).  On the concrete dataset of the tests, `UGRD`, `VGRD`, `TMP`
become exactly `u`, `v`, `t`, and the alias names are gone. -/
theorem normalize_variable_names_spec :
    (∀ (vars : List String) (c : String) (as : List String) (a : String),
        (c, as) ∈ VARIABLE_MAP → firstAlias as vars = some a →
        a ∈ vars ∧ applyRename (buildRenameDict vars) a = c) ∧
    (∀ (vars : List String) (c : String) (as : List String),
        (c, as) ∈ VARIABLE_MAP → firstAlias as vars = none →
        c ∉ normalizeVariableNames vars) ∧
    normalizeVariableNames ["UGRD", "VGRD", "TMP"] = ["u", "v", "t"] :=
  ⟨fun vars c as a hma hfa => applyRename_first_alias vars c as a hma hfa,
   fun vars c as hma hfa => canonical_unset_when_no_alias vars c as hma hfa,
   by decide⟩

/-- Witness for C6: the alias `UGRD` of the canonical name `u` is present
in a dataset holding only `UGRD`, and is renamed to `u`. -/
theorem normalize_variable_names_spec_witness :
    "UGRD" ∈ ["UGRD"] ∧ applyRename (buildRenameDict ["UGRD"]) "UGRD" = "u" :=
  normalize_variable_names_spec.1 ["UGRD"] "u" ["u", "UGRD", "u_wind"] "UGRD"
    (by decide) (by decide)

end PLAT
